import Mathlib

/-!
A shallow embedding of `fboss/agent/NeighborCacheImpl-defs.h`: the neighbor
resolution cache of the FBOSS switch agent.  The cache keeps a map from
network address to cache entry and reconciles mutations into an immutable
switch-state tree by submitting pure transform functions ("updateFn"s) that
either produce a new state or signal no-op (`nullptr`, here `none`).

Addresses, MAC addresses, ports, interface ids and VLAN ids are modelled as
`Nat`.  Maps (the cache's `entries_`, the VLAN map, the neighbor table) are
modelled as association lists with an insert-or-replace operation, matching
the key/value semantics the code relies on.  A transform that the C++ code
would crash on (an uncaught throw from the unchecked `getVlan` accessor, or
a failed `CHECK`) is modelled with `Except`/`Option` error values.
-/

namespace Fboss

/-- Lifecycle states of a neighbor entry (`NeighborEntryState`). -/
inductive NeighborEntryState where
  | INCOMPLETE
  | REACHABLE
  | STALE
  | PROBE
  | EXPIRED
  deriving DecidableEq, Repr

/-- Embeds `NeighborCacheEntry<NTable>::EntryFields`: address, optional learned MAC
(`none` while unresolved), egress port, interface id, and the pending flag
distinguishing an unresolved entry from a resolved one. -/
structure EntryFields where
  ip : Nat
  mac : Option Nat
  port : Nat
  interfaceID : Nat
  pending : Bool
  deriving DecidableEq, Repr

/-- The `EntryFields(ip, mac, portID, intfID)` constructor used by
`setEntry`/`setExistingEntry`: a resolved (non-pending) set of fields. -/
def EntryFields.resolved (ip mac port intfID : Nat) : EntryFields :=
  ⟨ip, some mac, port, intfID, false⟩

/-- The `EntryFields(ip, intfID, PENDING)` constructor used by
`setPendingEntry`: no MAC, port zeroed, pending flag set. -/
def EntryFields.pendingFields (ip intfID : Nat) : EntryFields :=
  ⟨ip, none, 0, intfID, true⟩

/-- A node of a VLAN's neighbor table inside the switch-state tree
(`NeighborEntry`): MAC, port, interface id and pending flag, keyed by its
address in the table. -/
structure NeighborNode where
  mac : Option Nat
  port : Nat
  intfID : Nat
  pending : Bool
  deriving DecidableEq, Repr

/-! ### Association-list primitives

The cache map, the VLAN map and the neighbor tables are keyed collections;
we embed them as association lists with first-match lookup, insert-or-replace
and erase-first-occurrence. -/

/-- First-match lookup in an association list. -/
def lookupA {α : Type} : List (Nat × α) → Nat → Option α
  | [], _ => none
  | (k2, v) :: rest, k => if k2 = k then some v else lookupA rest k

/-- Insert-or-replace at a key (replaces the first occurrence in place, else
appends). -/
def insertA {α : Type} : List (Nat × α) → Nat → α → List (Nat × α)
  | [], k, v => [(k, v)]
  | (k2, v2) :: rest, k, v =>
    if k2 = k then (k, v) :: rest else (k2, v2) :: insertA rest k v

/-- Erase the first occurrence of a key. -/
def eraseA {α : Type} : List (Nat × α) → Nat → List (Nat × α)
  | [], _ => []
  | (k2, v2) :: rest, k =>
    if k2 = k then rest else (k2, v2) :: eraseA rest k

theorem lookupA_insertA_self {α : Type} (l : List (Nat × α)) (k : Nat) (v : α) :
    lookupA (insertA l k v) k = some v := by
  induction l with
  | nil => simp [insertA, lookupA]
  | cons hd tl ih =>
    obtain ⟨k2, v2⟩ := hd
    by_cases h : k2 = k
    · simp [insertA, h, lookupA]
    · simp [insertA, h, lookupA, ih]

theorem lookupA_insertA_ne {α : Type} (l : List (Nat × α)) (k k2 : Nat) (v : α)
    (h : k ≠ k2) : lookupA (insertA l k v) k2 = lookupA l k2 := by
  induction l with
  | nil => simp [insertA, lookupA, h]
  | cons hd tl ih =>
    obtain ⟨k3, v3⟩ := hd
    by_cases h3 : k3 = k
    · subst h3
      simp [insertA, lookupA, h]
    · simp only [insertA, if_neg h3, lookupA]
      by_cases h4 : k3 = k2
      · simp [h4]
      · simp [h4, ih]

theorem lookupA_eraseA_self {α : Type} (l : List (Nat × α)) (k : Nat)
    (hnd : (l.map Prod.fst).Nodup) : lookupA (eraseA l k) k = none := by
  induction l with
  | nil => simp [eraseA, lookupA]
  | cons hd tl ih =>
    obtain ⟨k2, v2⟩ := hd
    simp only [List.map_cons, List.nodup_cons] at hnd
    by_cases h : k2 = k
    · subst h
      simp only [eraseA, if_pos rfl]
      -- k2 does not occur among the tail's keys, so lookup misses
      clear ih
      induction tl with
      | nil => simp [lookupA]
      | cons hd2 tl2 ih2 =>
        obtain ⟨k3, v3⟩ := hd2
        simp only [List.map_cons, List.mem_cons, List.nodup_cons] at hnd
        have hk3 : k3 ≠ k2 := fun he => hnd.1 (Or.inl he.symm)
        simp only [lookupA, if_neg hk3]
        exact ih2 ⟨fun hm => hnd.1 (Or.inr hm), hnd.2.2⟩
    · simp only [eraseA, if_neg h, lookupA, if_neg h]
      exact ih hnd.2

theorem lookupA_eraseA_ne {α : Type} (l : List (Nat × α)) (k k2 : Nat)
    (h : k ≠ k2) : lookupA (eraseA l k) k2 = lookupA l k2 := by
  induction l with
  | nil => simp [eraseA]
  | cons hd tl ih =>
    obtain ⟨k3, v3⟩ := hd
    by_cases h3 : k3 = k
    · subst h3
      simp [eraseA, lookupA, h]
    · simp only [eraseA, if_neg h3, lookupA]
      by_cases h4 : k3 = k2
      · simp [h4]
      · simp [h4, ih]

/-! ### The switch-state tree -/

/-- A VLAN's neighbor table: address ↦ node. -/
abbrev NeighborTable := List (Nat × NeighborNode)

/-- Embeds `NTable::getNodeIf(ip)`. -/
def NeighborTable.getNodeIf (t : NeighborTable) (ip : Nat) : Option NeighborNode :=
  lookupA t ip

/-- Embeds `NTable::addEntry(fields)`: add a node carrying the given fields. -/
def NeighborTable.addEntry (t : NeighborTable) (f : EntryFields) : NeighborTable :=
  insertA t f.ip ⟨f.mac, f.port, f.interfaceID, f.pending⟩

/-- Embeds `NTable::updateEntry(fields)`: update the node in place to the given
fields (same key/value effect as an insert-or-replace). -/
def NeighborTable.updateEntry (t : NeighborTable) (f : EntryFields) : NeighborTable :=
  insertA t f.ip ⟨f.mac, f.port, f.interfaceID, f.pending⟩

/-- Embeds `NTable::addPendingEntry(ip, intfID)`: add an unresolved node (no MAC,
port zeroed, pending flag set). -/
def NeighborTable.addPendingEntry (t : NeighborTable) (ip intfID : Nat) : NeighborTable :=
  insertA t ip ⟨none, 0, intfID, true⟩

/-- Embeds `NTable::removeEntry(ip)` / `NTable::removeNode(ip)`. -/
def NeighborTable.removeNode (t : NeighborTable) (ip : Nat) : NeighborTable :=
  eraseA t ip

/-- A VLAN as the cache sees it: its neighbor table for the cache's address
family (`vlan->getNeighborTable<NTable>()`). -/
structure Vlan where
  table : NeighborTable
  deriving DecidableEq, Repr

/-- A switch-state snapshot: VLAN id ↦ VLAN, plus the set of
(address, interface) pairs that are locally attached, standing in for the
interface/subnet configuration that `Interface::isIpAttached` consults. -/
structure SwitchState where
  vlans : List (Nat × Vlan)
  attached : List (Nat × Nat)
  deriving DecidableEq, Repr

/-- Embeds `VlanMap::getVlanIf(vlanID)`: checked lookup, `none` when absent. -/
def SwitchState.getVlanIf (s : SwitchState) (vlanID : Nat) : Option Vlan :=
  lookupA s.vlans vlanID

/-- Modelled from the spec: `VlanMap::getVlan(vlanID)` is code of this
repository outside `src/` (only its caller `flushEntry` is in `src/`).  It is
the unchecked counterpart of `getVlanIf`: the spec's tree collaborator keeps
no VLAN node for a deleted VLAN, and the source dereferences this accessor's
result unconditionally, so an absent VLAN is an error (`Except.error`),
never a valid VLAN. -/
def SwitchState.getVlan (s : SwitchState) (vlanID : Nat) : Except Unit Vlan :=
  match lookupA s.vlans vlanID with
  | none => Except.error ()
  | some v => Except.ok v

/-- Replace a VLAN's neighbor table, producing the new snapshot that the
copy-on-write `modify(&vlan, &newState)` path publishes. -/
def SwitchState.setVlanTable (s : SwitchState) (vlanID : Nat) (t : NeighborTable) :
    SwitchState :=
  { s with vlans := insertA s.vlans vlanID ⟨t⟩ }

/-- Embeds `Interface::isIpAttached(ip, intfID, state)`: whether the address is on a
locally attached subnet of the interface in this snapshot. -/
def Interface.isIpAttached (ip intfID : Nat) (s : SwitchState) : Bool :=
  s.attached.contains (ip, intfID)

/-- Embeds `ncachehelpers::checkVlanAndIntf`: the VLAN still exists and the entry's
address is still locally attached on its interface. -/
def checkVlanAndIntf (s : SwitchState) (fields : EntryFields) (vlanID : Nat) : Bool :=
  match s.getVlanIf vlanID with
  | none => false
  | some _ => Interface.isIpAttached fields.ip fields.interfaceID s

/-- The updateFn submitted by `programEntry`: validate VLAN and interface,
then add the node if absent; if present with identical MAC/port/interface
and not pending, signal no-op (`none`); otherwise update it in place. -/
def programEntryFn (fields : EntryFields) (vlanID : Nat) (s : SwitchState) :
    Option SwitchState :=
  if !checkVlanAndIntf s fields vlanID then none
  else
    match s.getVlanIf vlanID with
    | none => none
    | some vlan =>
      match vlan.table.getNodeIf fields.ip with
      | none => some (s.setVlanTable vlanID (vlan.table.addEntry fields))
      | some node =>
        if node.mac == fields.mac && node.port == fields.port &&
            node.intfID == fields.interfaceID && !node.pending then
          none
        else
          some (s.setVlanTable vlanID (vlan.table.updateEntry fields))

/-- The updateFn submitted by `programPendingEntry`: validate VLAN and
interface; if a node exists and `force` is not set, signal no-op; otherwise
remove any existing node and add a pending node. -/
def programPendingEntryFn (fields : EntryFields) (vlanID : Nat) (force : Bool)
    (s : SwitchState) : Option SwitchState :=
  if !checkVlanAndIntf s fields vlanID then none
  else
    match s.getVlanIf vlanID with
    | none => none
    | some vlan =>
      match vlan.table.getNodeIf fields.ip with
      | some _ =>
        if !force then none
        else
          some (s.setVlanTable vlanID
            ((vlan.table.removeNode fields.ip).addPendingEntry fields.ip fields.interfaceID))
      | none =>
        some (s.setVlanTable vlanID
          (vlan.table.addPendingEntry fields.ip fields.interfaceID))

/-- Embeds `flushEntryFromSwitchState` on a VLAN's table: `none` when the node is
absent (the C++ returns `false` and leaves the state alone), otherwise the
table with the node removed. -/
def flushEntryFromSwitchState (vlan : Vlan) (ip : Nat) : Option NeighborTable :=
  match vlan.table.getNodeIf ip with
  | none => none
  | some _ => some (vlan.table.removeNode ip)

/-- The updateFn submitted by `flushEntry`: looks the VLAN up with the
unchecked `getVlan` accessor (an absent VLAN is an error, not a no-op), then
removes the node if present (`Except.ok (some _)`) or signals no-op
(`Except.ok none`). -/
def flushEntryUpdateFn (vlanID ip : Nat) (s : SwitchState) :
    Except Unit (Option SwitchState) :=
  match s.getVlan vlanID with
  | Except.error e => Except.error e
  | Except.ok vlan =>
    match flushEntryFromSwitchState vlan ip with
    | none => Except.ok none
    | some t => Except.ok (some (s.setVlanTable vlanID t))

/-! ### The cache map and its entries -/

/-- A `NeighborCacheEntry<NTable>` as the cache map holds it: its fields and
its current lifecycle state.  The entry's timers live on the background
execution context and are outside this embedding. -/
structure CacheEntry where
  fields : EntryFields
  state : NeighborEntryState
  deriving DecidableEq, Repr

/-- Modelled from the spec: `NeighborCacheEntry::isPending` is code of this
repository outside `src/`; per the spec an entry carries "a pending flag
distinguishing an entry with no learned link-layer address from a fully
resolved one". -/
def CacheEntry.isPending (e : CacheEntry) : Bool :=
  e.fields.pending

/-- Modelled from the spec: `NeighborCacheEntry::fieldsMatch` is code of this
repository outside `src/`; it reports whether the entry's fields already
equal the requested values (`upsert` "updates its fields only if they differ
from the requested values"). -/
def CacheEntry.fieldsMatch (e : CacheEntry) (f : EntryFields) : Bool :=
  e.fields == f

/-- Modelled from the spec: `NeighborCacheEntry::updateFields` is code of this
repository outside `src/`; a field update "reuses the slot", replacing MAC,
port and the rest of the fields in place. -/
def CacheEntry.updateFields (e : CacheEntry) (f : EntryFields) : CacheEntry :=
  { e with fields := f }

/-- Modelled from the spec: `NeighborCacheEntry::updateState` is code of this
repository outside `src/`; `upsert` "always refreshes its lifecycle-state
tracking", moving the entry to the supplied lifecycle state (timer rearm is
outside this embedding). -/
def CacheEntry.updateState (e : CacheEntry) (st : NeighborEntryState) : CacheEntry :=
  { e with state := st }

/-- A tree transform submitted to `SwSwitch::updateState` /
`updateStateBlocking`, identified by the updateFn the source builds. -/
inductive StateUpdate where
  | program (fields : EntryFields) (vlanID : Nat)
  | programPending (fields : EntryFields) (vlanID : Nat) (force : Bool)
  | flush (vlanID : Nat) (ip : Nat)
  deriving DecidableEq, Repr

/-- Apply a submitted transform to the snapshot current at apply time.
`Except.ok none` is the no-op signal; `Except.error` models an uncaught
throw escaping the updateFn. -/
def applyUpdate : StateUpdate → SwitchState → Except Unit (Option SwitchState)
  | StateUpdate.program fields vlanID, s => Except.ok (programEntryFn fields vlanID s)
  | StateUpdate.programPending fields vlanID force, s =>
      Except.ok (programPendingEntryFn fields vlanID force s)
  | StateUpdate.flush vlanID ip, s => flushEntryUpdateFn vlanID ip s

/-- Embeds `NeighborCacheImpl<NTable>`: the VLAN and interface the cache serves and
its `entries_` map from address to entry. -/
structure NeighborCache where
  vlanID : Nat
  intfID : Nat
  entries : List (Nat × CacheEntry)
  deriving DecidableEq, Repr

/-- Embeds `getCacheEntry(ip)`: lock-scoped map lookup. -/
def NeighborCache.getCacheEntry (c : NeighborCache) (ip : Nat) : Option CacheEntry :=
  lookupA c.entries ip

/-- Embeds `setCacheEntry(entry)`: `entries_[entry->getIP()] = entry`. -/
def NeighborCache.setCacheEntry (c : NeighborCache) (e : CacheEntry) : NeighborCache :=
  { c with entries := insertA c.entries e.fields.ip e }

/-- Embeds `setEntryInternal(fields, state, add)`: update an existing entry's fields
(only if they differ) and lifecycle state, or — when `add` — create and
register a fresh entry; returns the touched entry (`none` when absent and
`add` is false) together with the new map. -/
def NeighborCache.setEntryInternal (c : NeighborCache) (fields : EntryFields)
    (state : NeighborEntryState) (add : Bool) : Option CacheEntry × NeighborCache :=
  match c.getCacheEntry fields.ip with
  | some entry =>
    let entry1 := if entry.fieldsMatch fields then entry else entry.updateFields fields
    let entry2 := entry1.updateState state
    (some entry2, { c with entries := insertA c.entries fields.ip entry2 })
  | none =>
    if add then
      let e : CacheEntry := ⟨fields, state⟩
      (some e, c.setCacheEntry e)
    else
      (none, c)

/-- Embeds `programEntry(entry)`: `CHECK(!entry->isPending())`, then submit the
`programEntryFn` transform.  A firing `CHECK` is modelled as `none`. -/
def NeighborCache.programEntry (c : NeighborCache) (e : CacheEntry) :
    Option StateUpdate :=
  if e.isPending then none
  else some (StateUpdate.program e.fields c.vlanID)

/-- Embeds `programPendingEntry(entry, force)`: `CHECK(entry->isPending())`, then
submit the `programPendingEntryFn` transform.  A firing `CHECK` is modelled
as `none`. -/
def NeighborCache.programPendingEntry (c : NeighborCache) (e : CacheEntry)
    (force : Bool) : Option StateUpdate :=
  if !e.isPending then none
  else some (StateUpdate.programPending e.fields c.vlanID force)

/-- Embeds `setEntry(ip, mac, portID, state)`: upsert into the map, then program the
entry.  Returns the new map and the submitted transform (`none` only if a
`CHECK` fired). -/
def NeighborCache.setEntry (c : NeighborCache) (ip mac portID : Nat)
    (state : NeighborEntryState) : Option (NeighborCache × StateUpdate) :=
  match c.setEntryInternal (EntryFields.resolved ip mac portID c.intfID) state true with
  | (some entry, c2) =>
    match c.programEntry entry with
    | some u => some (c2, u)
    | none => none
  | (none, _) => none

/-- Embeds `setExistingEntry(ip, mac, portID, state)`: like `setEntry` but never
creates an entry; programs only when one exists. -/
def NeighborCache.setExistingEntry (c : NeighborCache) (ip mac portID : Nat)
    (state : NeighborEntryState) : Option (NeighborCache × Option StateUpdate) :=
  match c.setEntryInternal (EntryFields.resolved ip mac portID c.intfID) state false with
  | (some entry, c2) =>
    match c.programEntry entry with
    | some u => some (c2, some u)
    | none => none
  | (none, c2) => some (c2, none)

/-- Embeds `setPendingEntry(ip, force)`: without `force`, an existing entry is left
alone (early return, no transform); otherwise upsert a pending entry and
program it. -/
def NeighborCache.setPendingEntry (c : NeighborCache) (ip : Nat) (force : Bool) :
    Option (NeighborCache × Option StateUpdate) :=
  if !force && (c.getCacheEntry ip).isSome then some (c, none)
  else
    match c.setEntryInternal (EntryFields.pendingFields ip c.intfID)
        NeighborEntryState.INCOMPLETE true with
    | (some entry, c2) =>
      match c.programPendingEntry entry force with
      | some u => some (c2, some u)
      | none => none
    | (none, _) => none

/-- Embeds `removeEntry(ip)`: erase from the map (entry destruction itself happens
asynchronously on the background context); reports whether anything was
present. -/
def NeighborCache.removeEntry (c : NeighborCache) (ip : Nat) : Bool × NeighborCache :=
  match lookupA c.entries ip with
  | none => (false, c)
  | some _ => (true, { c with entries := eraseA c.entries ip })

/-- Embeds `flushEntry(ip)` (fire-and-forget): remove from the map, and if anything
was there submit the flush transform and return `true`; otherwise return
`false` with nothing submitted. -/
def NeighborCache.flushEntry (c : NeighborCache) (ip : Nat) :
    Bool × NeighborCache × Option StateUpdate :=
  match c.removeEntry ip with
  | (false, c2) => (false, c2, none)
  | (true, c2) => (true, c2, some (StateUpdate.flush c.vlanID ip))

/-- Embeds `flushEntryBlocking(ip)`: remove from the map, run the flush transform
against the snapshot current at apply time, and return whether the flush
actually changed the tree.  An uncaught throw from the transform propagates
to the caller (`Except.error`). -/
def NeighborCache.flushEntryBlocking (c : NeighborCache) (ip : Nat) (s : SwitchState) :
    Except Unit (Bool × NeighborCache) :=
  match c.removeEntry ip with
  | (false, c2) => Except.ok (false, c2)
  | (true, c2) =>
    match flushEntryUpdateFn c.vlanID ip s with
    | Except.error e => Except.error e
    | Except.ok r => Except.ok (r.isSome, c2)

/-- Embeds `processEntry(ip)`: advance the entry's state machine one step (the step
function itself lives in `NeighborCacheEntry::process`, outside `src/`, so it
is a parameter here) and flush the entry if the step expired it. -/
def NeighborCache.processEntry (c : NeighborCache) (proc : CacheEntry → CacheEntry)
    (ip : Nat) : NeighborCache × Option StateUpdate :=
  match c.getCacheEntry ip with
  | none => (c, none)
  | some e =>
    let e2 := proc e
    let c2 : NeighborCache := { c with entries := insertA c.entries ip e2 }
    if e2.state = NeighborEntryState.EXPIRED then
      match c2.flushEntry ip with
      | (_, c3, u) => (c3, u)
    else
      (c2, none)

/-- Embeds `repopulate(table)`: replay every node of a persisted neighbor table into
the map, seeding state INCOMPLETE for pending nodes and STALE otherwise. -/
def NeighborCache.repopulate (c : NeighborCache) (table : NeighborTable) :
    NeighborCache :=
  table.foldl (fun acc p =>
    let f : EntryFields := ⟨p.1, p.2.mac, p.2.port, p.2.intfID, p.2.pending⟩
    let st := if p.2.pending then NeighborEntryState.INCOMPLETE
      else NeighborEntryState.STALE
    (acc.setEntryInternal f st true).2) c

/-- Embeds `isSolicited(ip)`: an entry exists and is in an actively probing state
(`isProbing` is outside `src/`; per the spec INCOMPLETE or PROBE). -/
def NeighborCache.isSolicited (c : NeighborCache) (ip : Nat) : Bool :=
  match c.getCacheEntry ip with
  | none => false
  | some e => e.state = NeighborEntryState.INCOMPLETE ∨ e.state = NeighborEntryState.PROBE

/-- One iteration of the `portDown` loop: skip an entry bound to another
port, otherwise `setPendingEntry(entry->getIP(), true)` on the current
cache, collecting the submitted transform. -/
def NeighborCache.portDownStep (port : Nat)
    (acc : Option (NeighborCache × List StateUpdate)) (p : Nat × CacheEntry) :
    Option (NeighborCache × List StateUpdate) :=
  match acc with
  | none => none
  | some (cc, us) =>
    if p.2.fields.port = port then
      match cc.setPendingEntry p.2.fields.ip true with
      | some (cc2, u) => some (cc2, us ++ u.toList)
      | none => none
    else
      some (cc, us)

/-- Embeds `portDown(port)`: walk the map and force-replace every entry bound to the
downed port with a fresh pending entry, submitting the forced pending
transform for each. -/
def NeighborCache.portDown (c : NeighborCache) (port : Nat) :
    Option (NeighborCache × List StateUpdate) :=
  c.entries.foldl (NeighborCache.portDownStep port) (some (c, []))

/-- A well-formed cache map: every entry is keyed by its own address and
keys are unique (both hold for `std::unordered_map` keyed by `getIP`). -/
def NeighborCache.wellFormed (c : NeighborCache) : Prop :=
  (∀ p ∈ c.entries, p.2.fields.ip = p.1) ∧ (c.entries.map Prod.fst).Nodup

instance (c : NeighborCache) : Decidable c.wellFormed := by
  unfold NeighborCache.wellFormed
  infer_instance

/-! ### Helper lemmas -/

/-- The cache with its `entries_` map replaced (abbreviation used to state
lemmas about the map after an operation). -/
def NeighborCache.withEntries (c : NeighborCache) (l : List (Nat × CacheEntry)) :
    NeighborCache :=
  { c with entries := l }

/-- Helper: `setEntryInternal` with `add` set always stores exactly the supplied
fields and state at the supplied address: an existing entry is rewritten to
them (the skipped `updateFields` branch only fires when the fields already
agree), and a fresh entry is created from them. -/
theorem setEntryInternal_add (c : NeighborCache) (fields : EntryFields)
    (st : NeighborEntryState) :
    c.setEntryInternal fields st true =
      (some ⟨fields, st⟩,
        c.withEntries (insertA c.entries fields.ip ⟨fields, st⟩)) := by
  unfold NeighborCache.setEntryInternal NeighborCache.getCacheEntry
    NeighborCache.withEntries
  cases h : lookupA c.entries fields.ip with
  | none => simp [NeighborCache.setCacheEntry]
  | some entry =>
    simp only
    by_cases hm : entry.fieldsMatch fields
    · have hf : entry.fields = fields := by
        simpa [CacheEntry.fieldsMatch] using hm
      simp [hm, CacheEntry.updateState, hf]
    · simp [hm, CacheEntry.updateState, CacheEntry.updateFields]

/-- When an entry already exists at the address, `setEntryInternal` rewrites
it to the supplied fields and state whatever `add` is. -/
theorem setEntryInternal_found (c : NeighborCache) (fields : EntryFields)
    (st : NeighborEntryState) (add : Bool) (e0 : CacheEntry)
    (hl : c.getCacheEntry fields.ip = some e0) :
    c.setEntryInternal fields st add =
      (some ⟨fields, st⟩,
        c.withEntries (insertA c.entries fields.ip ⟨fields, st⟩)) := by
  unfold NeighborCache.setEntryInternal NeighborCache.withEntries
  rw [hl]
  by_cases hm : e0.fieldsMatch fields
  · have hf : e0.fields = fields := by
      simpa [CacheEntry.fieldsMatch] using hm
    simp [hm, CacheEntry.updateState, hf]
  · simp [hm, CacheEntry.updateState, CacheEntry.updateFields]

/-- Helper: `setEntryInternal` without `add` touches nothing when the entry is
absent. -/
theorem setEntryInternal_no_add (c : NeighborCache) (fields : EntryFields)
    (st : NeighborEntryState) (h : c.getCacheEntry fields.ip = none) :
    c.setEntryInternal fields st false = (none, c) := by
  unfold NeighborCache.setEntryInternal
  simp [h]

/-- Helper: `setEntry` never trips `programEntry`'s CHECK and always submits the
program transform for the resolved fields it installed. -/
theorem setEntry_eq (c : NeighborCache) (ip mac portID : Nat)
    (st : NeighborEntryState) :
    c.setEntry ip mac portID st =
      some (c.withEntries
          (insertA c.entries ip ⟨EntryFields.resolved ip mac portID c.intfID, st⟩),
        StateUpdate.program (EntryFields.resolved ip mac portID c.intfID) c.vlanID) := by
  unfold NeighborCache.setEntry
  rw [setEntryInternal_add]
  simp [NeighborCache.programEntry, CacheEntry.isPending, EntryFields.resolved]

/-- Forced `setPendingEntry` never trips `programPendingEntry`'s CHECK:
it installs a pending INCOMPLETE entry at the address and submits the forced
pending transform. -/
theorem setPendingEntry_force_eq (c : NeighborCache) (ip : Nat) :
    c.setPendingEntry ip true =
      some (c.withEntries (insertA c.entries ip
            ⟨EntryFields.pendingFields ip c.intfID, NeighborEntryState.INCOMPLETE⟩),
        some (StateUpdate.programPending (EntryFields.pendingFields ip c.intfID)
          c.vlanID true)) := by
  unfold NeighborCache.setPendingEntry
  rw [setEntryInternal_add]
  simp [NeighborCache.programPendingEntry, CacheEntry.isPending, EntryFields.pendingFields]

theorem lookupA_mem {α : Type} (l : List (Nat × α)) (k : Nat) (v : α)
    (h : lookupA l k = some v) : (k, v) ∈ l := by
  induction l with
  | nil => cases h
  | cons hd tl ih =>
    obtain ⟨k2, v2⟩ := hd
    by_cases h2 : k2 = k
    · subst h2
      simp only [lookupA, if_pos rfl] at h
      injection h with h
      subst h
      exact List.mem_cons_self _ _
    · simp only [lookupA, if_neg h2] at h
      exact List.mem_cons_of_mem _ (ih h)

theorem lookupA_eq_none {α : Type} (l : List (Nat × α)) (k : Nat)
    (h : lookupA l k = none) : ∀ p ∈ l, p.1 ≠ k := by
  induction l with
  | nil => intro p hp; cases hp
  | cons hd tl ih =>
    obtain ⟨k2, v2⟩ := hd
    by_cases h2 : k2 = k
    · simp [lookupA, h2] at h
    · simp only [lookupA, if_neg h2] at h
      intro p hp
      rcases List.mem_cons.mp hp with h3 | h3
      · subst h3
        exact h2
      · exact ih h p h3

theorem lookupA_of_mem_nodup {α : Type} (l : List (Nat × α)) (k : Nat) (v : α)
    (hmem : (k, v) ∈ l) (hnd : (l.map Prod.fst).Nodup) : lookupA l k = some v := by
  induction l with
  | nil => cases hmem
  | cons hd tl ih =>
    obtain ⟨k2, v2⟩ := hd
    simp only [List.map_cons, List.nodup_cons] at hnd
    rcases List.mem_cons.mp hmem with h | h
    · injection h with h1 h2
      subst h1
      subst h2
      simp [lookupA]
    · have hk : k ∈ tl.map Prod.fst := by
        exact List.mem_map_of_mem Prod.fst h
      have hne : k2 ≠ k := fun he => hnd.1 (he ▸ hk)
      simp only [lookupA, if_neg hne]
      exact ih h hnd.2

theorem map_fst_insertA {α : Type} (l : List (Nat × α)) (k : Nat) (v : α) :
    (insertA l k v).map Prod.fst =
      if k ∈ l.map Prod.fst then l.map Prod.fst else l.map Prod.fst ++ [k] := by
  induction l with
  | nil => simp [insertA]
  | cons hd tl ih =>
    obtain ⟨k2, v2⟩ := hd
    by_cases h2 : k2 = k
    · subst h2
      simp [insertA]
    · simp only [insertA, if_neg h2, List.map_cons, ih, List.mem_cons]
      by_cases hm : k ∈ tl.map Prod.fst
      · simp [hm]
      · have hne : ¬k = k2 := fun he => h2 he.symm
        simp [hm, hne]

theorem insertA_keys_nodup {α : Type} (l : List (Nat × α)) (k : Nat) (v : α)
    (h : (l.map Prod.fst).Nodup) : ((insertA l k v).map Prod.fst).Nodup := by
  rw [map_fst_insertA]
  by_cases hm : k ∈ l.map Prod.fst
  · simpa [hm] using h
  · simp only [hm, if_false]
    rw [List.nodup_append]
    exact ⟨h, List.nodup_singleton k, by simpa using hm⟩

/-- A conditional fold of insert-or-replace steps over a work list, the shape
shared by `portDown` (walk the map, force-replace matching entries) and
`repopulate` (replay every table node). -/
def foldInsert {α β : Type} (keyf : α → Nat) (valf : α → β) (cond : α → Bool)
    (todo : List α) (cur : List (Nat × β)) : List (Nat × β) :=
  todo.foldl (fun l p => if cond p then insertA l (keyf p) (valf p) else l) cur

theorem foldInsert_nil {α β : Type} (keyf : α → Nat) (valf : α → β)
    (cond : α → Bool) (cur : List (Nat × β)) :
    foldInsert keyf valf cond [] cur = cur := rfl

theorem foldInsert_cons {α β : Type} (keyf : α → Nat) (valf : α → β)
    (cond : α → Bool) (hd : α) (tl : List α) (cur : List (Nat × β)) :
    foldInsert keyf valf cond (hd :: tl) cur =
      foldInsert keyf valf cond tl
        (if cond hd then insertA cur (keyf hd) (valf hd) else cur) := rfl

/-- Keys never touched by the fold keep their binding. -/
theorem foldInsert_lookup_of_not_mem {α β : Type} (keyf : α → Nat) (valf : α → β)
    (cond : α → Bool) (todo : List α) (cur : List (Nat × β)) (k : Nat)
    (h : ∀ p ∈ todo, keyf p ≠ k) :
    lookupA (foldInsert keyf valf cond todo cur) k = lookupA cur k := by
  induction todo generalizing cur with
  | nil => rfl
  | cons hd tl ih =>
    rw [foldInsert_cons]
    rw [ih _ (fun p hp => h p (List.mem_cons_of_mem hd hp))]
    by_cases hc : cond hd
    · rw [if_pos hc, lookupA_insertA_ne _ _ _ _ (h hd (List.mem_cons_self hd tl))]
    · rw [if_neg hc]

/-- With distinct keys, an element of the work list whose condition holds ends
up bound to its value. -/
theorem foldInsert_lookup_of_mem {α β : Type} (keyf : α → Nat) (valf : α → β)
    (cond : α → Bool) (todo : List α) (cur : List (Nat × β)) (k : Nat) (p0 : α)
    (hnd : (todo.map keyf).Nodup) (hmem : p0 ∈ todo) (hk : keyf p0 = k)
    (hc : cond p0 = true) :
    lookupA (foldInsert keyf valf cond todo cur) k = some (valf p0) := by
  induction todo generalizing cur with
  | nil => cases hmem
  | cons hd tl ih =>
    simp only [List.map_cons, List.nodup_cons] at hnd
    rw [foldInsert_cons]
    rcases List.mem_cons.mp hmem with h0 | h0
    · subst h0
      rw [if_pos hc]
      rw [foldInsert_lookup_of_not_mem]
      · rw [hk, lookupA_insertA_self]
      · intro p hp he
        apply hnd.1
        have hmm : keyf p ∈ List.map keyf tl := List.mem_map_of_mem keyf hp
        rw [he, ← hk] at hmm
        exact hmm
    · exact ih _ hnd.2 h0

/-- With distinct keys, an element of the work list whose condition fails
keeps its original binding. -/
theorem foldInsert_lookup_of_mem_false {α β : Type} (keyf : α → Nat) (valf : α → β)
    (cond : α → Bool) (todo : List α) (cur : List (Nat × β)) (k : Nat) (p0 : α)
    (hnd : (todo.map keyf).Nodup) (hmem : p0 ∈ todo) (hk : keyf p0 = k)
    (hc : cond p0 = false) :
    lookupA (foldInsert keyf valf cond todo cur) k = lookupA cur k := by
  induction todo generalizing cur with
  | nil => rfl
  | cons hd tl ih =>
    simp only [List.map_cons, List.nodup_cons] at hnd
    rw [foldInsert_cons]
    rcases List.mem_cons.mp hmem with h0 | h0
    · subst h0
      rw [hc]
      simp only [Bool.false_eq_true, if_false]
      rw [foldInsert_lookup_of_not_mem]
      intro p hp he
      apply hnd.1
      have hmm : keyf p ∈ List.map keyf tl := List.mem_map_of_mem keyf hp
      rw [he, ← hk] at hmm
      exact hmm
    · have hne : keyf hd ≠ k := by
        intro he
        apply hnd.1
        have hmm : keyf p0 ∈ List.map keyf tl := List.mem_map_of_mem keyf h0
        rw [hk, ← he] at hmm
        exact hmm
      rw [ih _ hnd.2 h0]
      by_cases hchd : cond hd
      · rw [if_pos hchd, lookupA_insertA_ne _ _ _ _ hne]
      · rw [if_neg hchd]

/-! ### Claim theorems -/

/-- C1: with no existing cache entry, `setEntry(a, mac, port, REACHABLE)`
makes `lookup(a)` yield an entry with exactly that MAC, port and state
REACHABLE, and the submitted transform, applied to a snapshot where the
owning VLAN exists, `a` is locally attached and the VLAN's neighbor table
has no node for `a`, returns a new snapshot whose neighbor table has a node
for `a` with that MAC, port and interface. -/
theorem setEntry_fresh_correct (c : NeighborCache) (ip mac port : Nat)
    (hc : c.getCacheEntry ip = none) :
    ∃ c2, c.setEntry ip mac port NeighborEntryState.REACHABLE =
        some (c2, StateUpdate.program (EntryFields.resolved ip mac port c.intfID) c.vlanID) ∧
      c2.getCacheEntry ip =
        some ⟨EntryFields.resolved ip mac port c.intfID, NeighborEntryState.REACHABLE⟩ ∧
      ∀ s vlan, s.getVlanIf c.vlanID = some vlan →
        Interface.isIpAttached ip c.intfID s = true →
        vlan.table.getNodeIf ip = none →
        ∃ s2 vlan2,
          programEntryFn (EntryFields.resolved ip mac port c.intfID) c.vlanID s = some s2 ∧
          s2.getVlanIf c.vlanID = some vlan2 ∧
          vlan2.table.getNodeIf ip = some ⟨some mac, port, c.intfID, false⟩ := by
  refine ⟨_, setEntry_eq c ip mac port NeighborEntryState.REACHABLE, ?_, ?_⟩
  · show lookupA (insertA c.entries ip _) ip = _
    rw [lookupA_insertA_self]
  · intro s vlan hv ha hn
    have hchk : checkVlanAndIntf s (EntryFields.resolved ip mac port c.intfID) c.vlanID
        = true := by
      unfold checkVlanAndIntf
      rw [hv]
      exact ha
    refine ⟨s.setVlanTable c.vlanID
        (vlan.table.addEntry (EntryFields.resolved ip mac port c.intfID)),
      ⟨vlan.table.addEntry (EntryFields.resolved ip mac port c.intfID)⟩, ?_, ?_, ?_⟩
    · have hn2 : vlan.table.getNodeIf (EntryFields.resolved ip mac port c.intfID).ip
          = none := hn
      simp [programEntryFn, hchk, hv, hn2]
    · show lookupA (insertA s.vlans c.vlanID _) c.vlanID = _
      rw [lookupA_insertA_self]
    · show lookupA (insertA vlan.table (EntryFields.resolved ip mac port c.intfID).ip _)
          (EntryFields.resolved ip mac port c.intfID).ip = _
      rw [lookupA_insertA_self]
      simp [EntryFields.resolved]

/-- C1 witness: the theorem applied to a concrete empty cache on VLAN 1,
interface 7, for address 5 with MAC 9 and port 3. -/
theorem setEntry_fresh_correct_witness :
    (NeighborCache.mk 1 7 []).getCacheEntry 5 = none ∧
    (∃ c2, (NeighborCache.mk 1 7 []).setEntry 5 9 3 NeighborEntryState.REACHABLE =
        some (c2, StateUpdate.program (EntryFields.resolved 5 9 3 7) 1) ∧
      c2.getCacheEntry 5 =
        some ⟨EntryFields.resolved 5 9 3 7, NeighborEntryState.REACHABLE⟩ ∧
      ∀ s vlan, s.getVlanIf 1 = some vlan →
        Interface.isIpAttached 5 7 s = true →
        vlan.table.getNodeIf 5 = none →
        ∃ s2 vlan2, programEntryFn (EntryFields.resolved 5 9 3 7) 1 s = some s2 ∧
          s2.getVlanIf 1 = some vlan2 ∧
          vlan2.table.getNodeIf 5 = some ⟨some 9, 3, 7, false⟩) :=
  ⟨rfl, setEntry_fresh_correct (NeighborCache.mk 1 7 []) 5 9 3 rfl⟩

/-- C3: with the VLAN present and the address attached, the `programEntry`
transform signals no-op exactly when the existing node's MAC, port and
interface equal the requested fields and the node is not pending; in
particular a second identical `setEntry` transform, applied to the snapshot
the first one produced, resolves to no-op (one tree version, not two). -/
theorem programEntry_idempotent_noop_iff (fields : EntryFields) (vlanID : Nat)
    (s : SwitchState) (vlan : Vlan) (hv : s.getVlanIf vlanID = some vlan)
    (ha : Interface.isIpAttached fields.ip fields.interfaceID s = true) :
    (programEntryFn fields vlanID s = none ↔
      ∃ node, vlan.table.getNodeIf fields.ip = some node ∧
        node.mac = fields.mac ∧ node.port = fields.port ∧
        node.intfID = fields.interfaceID ∧ node.pending = false) ∧
    (fields.pending = false → vlan.table.getNodeIf fields.ip = none →
      ∀ s2, programEntryFn fields vlanID s = some s2 →
        programEntryFn fields vlanID s2 = none) := by
  have hchk : checkVlanAndIntf s fields vlanID = true := by
    unfold checkVlanAndIntf
    rw [hv]
    exact ha
  constructor
  · cases hn : vlan.table.getNodeIf fields.ip with
    | none => simp [programEntryFn, hchk, hv, hn]
    | some node =>
      by_cases hb : (node.mac == fields.mac && node.port == fields.port &&
          node.intfID == fields.interfaceID && !node.pending) = true
      · have hb2 := hb
        simp only [Bool.and_eq_true, beq_iff_eq, Bool.not_eq_true'] at hb2
        simp [programEntryFn, hchk, hv, hn, hb, hb2.1.1.1, hb2.1.1.2, hb2.1.2, hb2.2]
      · simp only [programEntryFn, hchk, Bool.not_true, Bool.false_eq_true, if_false, hv,
          hn]
        rw [if_neg hb]
        constructor
        · intro h
          exact absurd h (by simp)
        · rintro ⟨n, hn2, h1, h2, h3, h4⟩
          injection hn2 with hn2
          subst hn2
          exact absurd (by simp [h1, h2, h3, h4]) hb
  · intro hpend hn s2 hs2
    have heq : programEntryFn fields vlanID s =
        some (s.setVlanTable vlanID (vlan.table.addEntry fields)) := by
      simp [programEntryFn, hchk, hv, hn]
    rw [heq] at hs2
    injection hs2 with hs2
    subst hs2
    have hv2 : (s.setVlanTable vlanID (vlan.table.addEntry fields)).getVlanIf vlanID =
        some ⟨vlan.table.addEntry fields⟩ := by
      show lookupA (insertA s.vlans vlanID _) vlanID = _
      rw [lookupA_insertA_self]
    have hchk2 : checkVlanAndIntf (s.setVlanTable vlanID (vlan.table.addEntry fields))
        fields vlanID = true := by
      unfold checkVlanAndIntf
      rw [hv2]
      exact ha
    have hn2 : (vlan.table.addEntry fields).getNodeIf fields.ip =
        some ⟨fields.mac, fields.port, fields.interfaceID, fields.pending⟩ := by
      show lookupA (insertA vlan.table fields.ip _) fields.ip = _
      rw [lookupA_insertA_self]
    simp [programEntryFn, hchk2, hv2, hn2, hpend]

/-- C3 witness: a fresh resolved entry for address 5 programmed into a
snapshot with VLAN 1 and address 5 attached on interface 7; both the iff and
the second-application no-op hold there. -/
theorem programEntry_idempotent_noop_iff_witness :
    (SwitchState.mk [(1, Vlan.mk [])] [(5, 7)]).getVlanIf 1 = some (Vlan.mk []) ∧
    Interface.isIpAttached (EntryFields.resolved 5 9 3 7).ip
      (EntryFields.resolved 5 9 3 7).interfaceID
      (SwitchState.mk [(1, Vlan.mk [])] [(5, 7)]) = true ∧
    ((programEntryFn (EntryFields.resolved 5 9 3 7) 1
        (SwitchState.mk [(1, Vlan.mk [])] [(5, 7)]) = none ↔
      ∃ node, (Vlan.mk []).table.getNodeIf (EntryFields.resolved 5 9 3 7).ip = some node ∧
        node.mac = (EntryFields.resolved 5 9 3 7).mac ∧
        node.port = (EntryFields.resolved 5 9 3 7).port ∧
        node.intfID = (EntryFields.resolved 5 9 3 7).interfaceID ∧
        node.pending = false) ∧
    ((EntryFields.resolved 5 9 3 7).pending = false →
      (Vlan.mk []).table.getNodeIf (EntryFields.resolved 5 9 3 7).ip = none →
      ∀ s2, programEntryFn (EntryFields.resolved 5 9 3 7) 1
          (SwitchState.mk [(1, Vlan.mk [])] [(5, 7)]) = some s2 →
        programEntryFn (EntryFields.resolved 5 9 3 7) 1 s2 = none)) :=
  ⟨rfl, rfl,
    programEntry_idempotent_noop_iff (EntryFields.resolved 5 9 3 7) 1
      (SwitchState.mk [(1, Vlan.mk [])] [(5, 7)]) (Vlan.mk []) rfl rfl⟩

/-- C2 counterexample: in a snapshot with no VLANs (owning VLAN 1 deleted),
the transform submitted by `flushEntry`/`flushEntryBlocking` raises an error
instead of resolving to the no-op signal (`Except.ok none`): its updateFn
looks VLAN 1 up with the unchecked accessor and there is no existence
check on the flush path. -/
theorem flush_transform_vlan_deleted_raises :
    (SwitchState.mk [] []).getVlanIf 1 = none ∧
    flushEntryUpdateFn 1 5 (SwitchState.mk [] []) = Except.error () := by
  exact ⟨rfl, rfl⟩

/-- C2 (amended): if the owning VLAN has been deleted from the snapshot, the
transforms of `setEntry`/`setExistingEntry` (`programEntry`) and of
`setPendingEntry` (`programPendingEntry`) resolve to no-op without
re-creating the VLAN and without error, while the transform of
`flushEntry`/`flushEntryBlocking` raises an error. -/
theorem vlan_deleted_transform_behavior (fields f2 : EntryFields)
    (vlanID ip : Nat) (force : Bool) (s : SwitchState)
    (hv : s.getVlanIf vlanID = none) :
    programEntryFn fields vlanID s = none ∧
    programPendingEntryFn f2 vlanID force s = none ∧
    flushEntryUpdateFn vlanID ip s = Except.error () := by
  have hchk : ∀ f : EntryFields, checkVlanAndIntf s f vlanID = false := by
    intro f
    unfold checkVlanAndIntf
    rw [hv]
  refine ⟨?_, ?_, ?_⟩
  · simp [programEntryFn, hchk]
  · simp [programPendingEntryFn, hchk]
  · unfold flushEntryUpdateFn SwitchState.getVlan
    have hl : lookupA s.vlans vlanID = none := hv
    rw [hl]

/-- C2 witness: the amended behavior at a concrete VLAN-less snapshot. -/
theorem vlan_deleted_transform_behavior_witness :
    (SwitchState.mk [] [(5, 7)]).getVlanIf 1 = none ∧
    (programEntryFn (EntryFields.resolved 5 9 3 7) 1 (SwitchState.mk [] [(5, 7)]) = none ∧
     programPendingEntryFn (EntryFields.pendingFields 5 7) 1 true
       (SwitchState.mk [] [(5, 7)]) = none ∧
     flushEntryUpdateFn 1 5 (SwitchState.mk [] [(5, 7)]) = Except.error ()) :=
  ⟨rfl, vlan_deleted_transform_behavior (EntryFields.resolved 5 9 3 7)
    (EntryFields.pendingFields 5 7) 1 5 true (SwitchState.mk [] [(5, 7)]) rfl⟩

/-- C4 counterexample: on a present address, the blocking flush does not
return whether the flush changed the tree when the owning VLAN has been
deleted — it raises an error instead of returning `false`. -/
theorem flushEntryBlocking_vlan_deleted_raises :
    (NeighborCache.mk 1 7
        [(5, CacheEntry.mk (EntryFields.resolved 5 9 3 7) NeighborEntryState.REACHABLE)]).getCacheEntry
        5 =
      some (CacheEntry.mk (EntryFields.resolved 5 9 3 7) NeighborEntryState.REACHABLE) ∧
    (NeighborCache.mk 1 7
        [(5, CacheEntry.mk (EntryFields.resolved 5 9 3 7) NeighborEntryState.REACHABLE)]).flushEntryBlocking
        5 (SwitchState.mk [] []) =
      Except.error () := by
  exact ⟨rfl, rfl⟩

/-- C4 (amended): `flushEntry` on an absent address returns false, submits no
transform and leaves map and tree untouched; on a present address it removes
the entry from the map, submits the flush transform (which removes the
node), the fire-and-forget variant returns true, and the blocking variant
returns whether the flush changed the tree provided the owning VLAN still
exists in the apply-time snapshot (with the VLAN deleted it raises instead
of returning false). -/
theorem flushEntry_behavior (c : NeighborCache) (ip : Nat) (s : SwitchState) :
    (c.getCacheEntry ip = none →
      c.flushEntry ip = (false, c, none) ∧
      c.flushEntryBlocking ip s = Except.ok (false, c)) ∧
    (∀ e, c.getCacheEntry ip = some e →
      c.flushEntry ip = (true, c.withEntries (eraseA c.entries ip),
        some (StateUpdate.flush c.vlanID ip)) ∧
      ((c.entries.map Prod.fst).Nodup →
        (c.withEntries (eraseA c.entries ip)).getCacheEntry ip = none) ∧
      (∀ vlan, s.getVlanIf c.vlanID = some vlan →
        c.flushEntryBlocking ip s =
          Except.ok ((vlan.table.getNodeIf ip).isSome,
            c.withEntries (eraseA c.entries ip))) ∧
      (∀ vlan node, s.getVlanIf c.vlanID = some vlan →
        vlan.table.getNodeIf ip = some node →
        flushEntryUpdateFn c.vlanID ip s =
          Except.ok (some (s.setVlanTable c.vlanID (vlan.table.removeNode ip))))) := by
  constructor
  · intro h
    have hr : c.removeEntry ip = (false, c) := by
      unfold NeighborCache.removeEntry
      rw [show lookupA c.entries ip = none from h]
    constructor
    · unfold NeighborCache.flushEntry
      rw [hr]
    · unfold NeighborCache.flushEntryBlocking
      rw [hr]
  · intro e h
    have hr : c.removeEntry ip = (true, c.withEntries (eraseA c.entries ip)) := by
      unfold NeighborCache.removeEntry NeighborCache.withEntries
      rw [show lookupA c.entries ip = some e from h]
    refine ⟨?_, ?_, ?_, ?_⟩
    · unfold NeighborCache.flushEntry
      rw [hr]
    · intro hnd
      show lookupA (eraseA c.entries ip) ip = none
      exact lookupA_eraseA_self c.entries ip hnd
    · intro vlan hv
      unfold NeighborCache.flushEntryBlocking
      rw [hr]
      have hvl : s.getVlan c.vlanID = Except.ok vlan := by
        unfold SwitchState.getVlan
        rw [show lookupA s.vlans c.vlanID = some vlan from hv]
      unfold flushEntryUpdateFn
      rw [hvl]
      unfold flushEntryFromSwitchState
      cases hn : vlan.table.getNodeIf ip <;> simp [hn]
    · intro vlan node hv hn
      have hvl : s.getVlan c.vlanID = Except.ok vlan := by
        unfold SwitchState.getVlan
        rw [show lookupA s.vlans c.vlanID = some vlan from hv]
      simp [flushEntryUpdateFn, hvl, flushEntryFromSwitchState, hn]

/-- C4 witness: the amended behavior at a concrete one-entry cache, both for
a present address (5, flushed from map and tree, blocking reports true) and
exercising the hypotheses at a snapshot where VLAN 1 holds a node for 5. -/
theorem flushEntry_behavior_witness :
    ((NeighborCache.mk 1 7
        [(5, CacheEntry.mk (EntryFields.resolved 5 9 3 7) NeighborEntryState.REACHABLE)]).getCacheEntry
        5 =
      some (CacheEntry.mk (EntryFields.resolved 5 9 3 7) NeighborEntryState.REACHABLE)) ∧
    ((NeighborCache.mk 1 7
        [(5, CacheEntry.mk (EntryFields.resolved 5 9 3 7) NeighborEntryState.REACHABLE)]).flushEntry
        5 =
      (true,
        (NeighborCache.mk 1 7
          [(5, CacheEntry.mk (EntryFields.resolved 5 9 3 7) NeighborEntryState.REACHABLE)]).withEntries
          (eraseA
            [(5, CacheEntry.mk (EntryFields.resolved 5 9 3 7) NeighborEntryState.REACHABLE)] 5),
        some (StateUpdate.flush 1 5))) := by
  have h := flushEntry_behavior
    (NeighborCache.mk 1 7
      [(5, CacheEntry.mk (EntryFields.resolved 5 9 3 7) NeighborEntryState.REACHABLE)]) 5
    (SwitchState.mk [(1, Vlan.mk [(5, NeighborNode.mk (some 9) 3 7 false)])] [(5, 7)])
  exact ⟨rfl, (h.2 (CacheEntry.mk (EntryFields.resolved 5 9 3 7) NeighborEntryState.REACHABLE)
    rfl).1⟩

/-- C5: unforced `setPendingEntry` on an address with an existing entry
returns before mutating the map and submits no transform, and the unforced
pending-add transform signals no-op whenever the tree already has a node for
the address, leaving that node unchanged. -/
theorem setPending_existing_noop (c : NeighborCache) (ip : Nat) (e : CacheEntry)
    (hc : c.getCacheEntry ip = some e) :
    c.setPendingEntry ip false = some (c, none) ∧
    (∀ (f : EntryFields) (vlanID : Nat) (s : SwitchState) (vlan : Vlan)
        (node : NeighborNode),
      s.getVlanIf vlanID = some vlan →
      vlan.table.getNodeIf f.ip = some node →
      programPendingEntryFn f vlanID false s = none) := by
  constructor
  · unfold NeighborCache.setPendingEntry
    rw [hc]
    rfl
  · intro f vlanID s vlan node hv hn
    by_cases ha : Interface.isIpAttached f.ip f.interfaceID s = true
    · have hchk : checkVlanAndIntf s f vlanID = true := by
        unfold checkVlanAndIntf
        rw [hv]
        exact ha
      simp [programPendingEntryFn, hchk, hv, hn]
    · have hchk : checkVlanAndIntf s f vlanID = false := by
        unfold checkVlanAndIntf
        rw [hv]
        exact Bool.not_eq_true _ ▸ ha
      simp [programPendingEntryFn, hchk]

/-- C5 witness: a one-entry cache at address 5 and a snapshot whose VLAN 1
already holds a node for 5. -/
theorem setPending_existing_noop_witness :
    ((NeighborCache.mk 1 7
        [(5, CacheEntry.mk (EntryFields.resolved 5 9 3 7) NeighborEntryState.REACHABLE)]).getCacheEntry
        5 =
      some (CacheEntry.mk (EntryFields.resolved 5 9 3 7) NeighborEntryState.REACHABLE)) ∧
    ((NeighborCache.mk 1 7
        [(5, CacheEntry.mk (EntryFields.resolved 5 9 3 7) NeighborEntryState.REACHABLE)]).setPendingEntry
        5 false =
      some (NeighborCache.mk 1 7
        [(5, CacheEntry.mk (EntryFields.resolved 5 9 3 7) NeighborEntryState.REACHABLE)], none)) ∧
    programPendingEntryFn (EntryFields.pendingFields 5 7) 1 false
      (SwitchState.mk [(1, Vlan.mk [(5, NeighborNode.mk (some 9) 3 7 false)])] [(5, 7)]) =
      none := by
  have h := setPending_existing_noop
    (NeighborCache.mk 1 7
      [(5, CacheEntry.mk (EntryFields.resolved 5 9 3 7) NeighborEntryState.REACHABLE)]) 5
    (CacheEntry.mk (EntryFields.resolved 5 9 3 7) NeighborEntryState.REACHABLE) rfl
  exact ⟨rfl, h.1,
    h.2 (EntryFields.pendingFields 5 7) 1
      (SwitchState.mk [(1, Vlan.mk [(5, NeighborNode.mk (some 9) 3 7 false)])] [(5, 7)])
      (Vlan.mk [(5, NeighborNode.mk (some 9) 3 7 false)])
      (NeighborNode.mk (some 9) 3 7 false) rfl rfl⟩

/-- The `portDown` loop, run from an arbitrary accumulator: it rewrites every
matching entry (at its own address) to a fresh pending INCOMPLETE entry and
appends one forced pending transform per matching entry, in order. -/
theorem portDown_go (port vID iID : Nat) (todo : List (Nat × CacheEntry)) :
    ∀ (ents : List (Nat × CacheEntry)) (us : List StateUpdate),
    List.foldl (NeighborCache.portDownStep port)
        (some (NeighborCache.mk vID iID ents, us)) todo =
      some (NeighborCache.mk vID iID
          (foldInsert (fun p => p.2.fields.ip)
            (fun p => CacheEntry.mk (EntryFields.pendingFields p.2.fields.ip iID)
              NeighborEntryState.INCOMPLETE)
            (fun p => decide (p.2.fields.port = port)) todo ents),
        us ++ (todo.filter (fun p => decide (p.2.fields.port = port))).map
          (fun p => StateUpdate.programPending
            (EntryFields.pendingFields p.2.fields.ip iID) vID true)) := by
  induction todo with
  | nil =>
    intro ents us
    simp [foldInsert]
  | cons hd tl ih =>
    intro ents us
    rw [List.foldl_cons]
    by_cases hp : hd.2.fields.port = port
    · have hstep : NeighborCache.portDownStep port
          (some (NeighborCache.mk vID iID ents, us)) hd =
          some (NeighborCache.mk vID iID (insertA ents hd.2.fields.ip
              (CacheEntry.mk (EntryFields.pendingFields hd.2.fields.ip iID)
                NeighborEntryState.INCOMPLETE)),
            us ++ [StateUpdate.programPending
              (EntryFields.pendingFields hd.2.fields.ip iID) vID true]) := by
        simp only [NeighborCache.portDownStep]
        rw [if_pos hp, setPendingEntry_force_eq]
        rfl
      rw [hstep, ih]
      rw [foldInsert_cons]
      simp [hp]
    · have hstep : NeighborCache.portDownStep port
          (some (NeighborCache.mk vID iID ents, us)) hd =
          some (NeighborCache.mk vID iID ents, us) := by
        simp only [NeighborCache.portDownStep]
        rw [if_neg hp]
      rw [hstep, ih]
      rw [foldInsert_cons]
      simp [hp]

/-- Helper: `portDown` never fails and is the conditional rewrite-plus-transforms
fold described by `portDown_go`. -/
theorem portDown_eq (c : NeighborCache) (port : Nat) :
    c.portDown port =
      some (NeighborCache.mk c.vlanID c.intfID
          (foldInsert (fun p => p.2.fields.ip)
            (fun p => CacheEntry.mk (EntryFields.pendingFields p.2.fields.ip c.intfID)
              NeighborEntryState.INCOMPLETE)
            (fun p => decide (p.2.fields.port = port)) c.entries c.entries),
        (c.entries.filter (fun p => decide (p.2.fields.port = port))).map
          (fun p => StateUpdate.programPending
            (EntryFields.pendingFields p.2.fields.ip c.intfID) c.vlanID true)) := by
  obtain ⟨vID, iID, ents⟩ := c
  unfold NeighborCache.portDown
  simpa using portDown_go port vID iID ents ents []

/-- C6: `portDown(p)` force-replaces every cache entry bound to port `p`
with a fresh pending entry (MAC cleared, state INCOMPLETE) and submits one
forced pending transform per such entry (which installs the pending node in
the tree and leaves every other address's node alone); every entry bound to
another port is left unchanged and gets no transform. -/
theorem portDown_correct (c : NeighborCache) (port : Nat) (hwf : c.wellFormed) :
    ∃ c2 us, c.portDown port = some (c2, us) ∧
      (∀ k e, c.getCacheEntry k = some e → e.fields.port = port →
        c2.getCacheEntry k =
          some (CacheEntry.mk (EntryFields.pendingFields k c.intfID)
            NeighborEntryState.INCOMPLETE) ∧
        StateUpdate.programPending (EntryFields.pendingFields k c.intfID)
          c.vlanID true ∈ us) ∧
      (∀ k e, c.getCacheEntry k = some e → e.fields.port ≠ port →
        c2.getCacheEntry k = some e) ∧
      (∀ u ∈ us, ∃ k e, c.getCacheEntry k = some e ∧ e.fields.port = port ∧
        u = StateUpdate.programPending (EntryFields.pendingFields k c.intfID)
          c.vlanID true) ∧
      (∀ ip2 intf2 s vlan, s.getVlanIf c.vlanID = some vlan →
        Interface.isIpAttached ip2 intf2 s = true →
        ∃ s2 vlan2,
          programPendingEntryFn (EntryFields.pendingFields ip2 intf2)
            c.vlanID true s = some s2 ∧
          s2.getVlanIf c.vlanID = some vlan2 ∧
          vlan2.table.getNodeIf ip2 = some (NeighborNode.mk none 0 intf2 true) ∧
          ∀ k, k ≠ ip2 → vlan2.table.getNodeIf k = vlan.table.getNodeIf k) := by
  have hkeys : ∀ p ∈ c.entries, p.2.fields.ip = p.1 := hwf.1
  have hndf : (c.entries.map (fun p : Nat × CacheEntry => p.2.fields.ip)).Nodup := by
    have hmap : c.entries.map (fun p : Nat × CacheEntry => p.2.fields.ip) =
        c.entries.map Prod.fst := List.map_congr_left hkeys
    rw [hmap]
    exact hwf.2
  refine ⟨_, _, portDown_eq c port, ?_, ?_, ?_, ?_⟩
  · intro k e hk hp
    have hmem : (k, e) ∈ c.entries := lookupA_mem c.entries k e hk
    have hkey : e.fields.ip = k := hkeys (k, e) hmem
    constructor
    · show lookupA (foldInsert _ _ _ c.entries c.entries) k = _
      rw [foldInsert_lookup_of_mem _ _ _ c.entries c.entries k (k, e) hndf hmem hkey
        (by simp [hp])]
      rw [hkey]
    · have hmf : (k, e) ∈ c.entries.filter
          (fun p : Nat × CacheEntry => decide (p.2.fields.port = port)) :=
        List.mem_filter.mpr ⟨hmem, by simp [hp]⟩
      have := List.mem_map_of_mem
        (fun p : Nat × CacheEntry => StateUpdate.programPending
          (EntryFields.pendingFields p.2.fields.ip c.intfID) c.vlanID true) hmf
      simpa [hkey] using this
  · intro k e hk hp
    have hmem : (k, e) ∈ c.entries := lookupA_mem c.entries k e hk
    have hkey : e.fields.ip = k := hkeys (k, e) hmem
    show lookupA (foldInsert _ _ _ c.entries c.entries) k = _
    rw [foldInsert_lookup_of_mem_false _ _ _ c.entries c.entries k (k, e) hndf hmem hkey
      (by simp [hp])]
    exact hk
  · intro u hu
    rcases List.mem_map.mp hu with ⟨p, hpf, hpu⟩
    rcases List.mem_filter.mp hpf with ⟨hpmem, hpcond⟩
    have hkey : p.2.fields.ip = p.1 := hkeys p hpmem
    refine ⟨p.1, p.2, ?_, ?_, ?_⟩
    · show lookupA c.entries p.1 = some p.2
      exact lookupA_of_mem_nodup c.entries p.1 p.2 hpmem hwf.2
    · simpa using hpcond
    · rw [← hpu, hkey]
  · intro ip2 intf2 s vlan hv ha
    have hchk : checkVlanAndIntf s (EntryFields.pendingFields ip2 intf2) c.vlanID
        = true := by
      unfold checkVlanAndIntf
      rw [hv]
      exact ha
    cases hn : vlan.table.getNodeIf ip2 with
    | some node =>
      refine ⟨s.setVlanTable c.vlanID
          ((vlan.table.removeNode ip2).addPendingEntry ip2 intf2),
        ⟨(vlan.table.removeNode ip2).addPendingEntry ip2 intf2⟩, ?_, ?_, ?_, ?_⟩
      · have hn2 : vlan.table.getNodeIf (EntryFields.pendingFields ip2 intf2).ip =
            some node := hn
        unfold programPendingEntryFn
        rw [hchk, hv]
        dsimp only
        rw [hn2]
        rfl
      · show lookupA (insertA s.vlans c.vlanID _) c.vlanID = _
        rw [lookupA_insertA_self]
      · show lookupA (insertA (eraseA vlan.table ip2) ip2 _) ip2 = _
        rw [lookupA_insertA_self]
      · intro k hk
        show lookupA (insertA (eraseA vlan.table ip2) ip2 _) k = lookupA vlan.table k
        rw [lookupA_insertA_ne _ _ _ _ (fun he => hk he.symm),
          lookupA_eraseA_ne _ _ _ (fun he => hk he.symm)]
    | none =>
      refine ⟨s.setVlanTable c.vlanID (vlan.table.addPendingEntry ip2 intf2),
        ⟨vlan.table.addPendingEntry ip2 intf2⟩, ?_, ?_, ?_, ?_⟩
      · have hn2 : vlan.table.getNodeIf (EntryFields.pendingFields ip2 intf2).ip =
            none := hn
        unfold programPendingEntryFn
        rw [hchk, hv]
        dsimp only
        rw [hn2]
        rfl
      · show lookupA (insertA s.vlans c.vlanID _) c.vlanID = _
        rw [lookupA_insertA_self]
      · show lookupA (insertA vlan.table ip2 _) ip2 = _
        rw [lookupA_insertA_self]
      · intro k hk
        show lookupA (insertA vlan.table ip2 _) k = lookupA vlan.table k
        rw [lookupA_insertA_ne _ _ _ _ (fun he => hk he.symm)]

/-- C6 witness: a two-entry cache (address 5 on port 3, address 6 on port 4)
with port 3 going down. -/
theorem portDown_correct_witness :
    (NeighborCache.mk 1 7
      [(5, CacheEntry.mk (EntryFields.resolved 5 9 3 7) NeighborEntryState.REACHABLE),
       (6, CacheEntry.mk (EntryFields.resolved 6 10 4 7) NeighborEntryState.REACHABLE)]).wellFormed ∧
    (∃ c2 us,
      (NeighborCache.mk 1 7
        [(5, CacheEntry.mk (EntryFields.resolved 5 9 3 7) NeighborEntryState.REACHABLE),
         (6, CacheEntry.mk (EntryFields.resolved 6 10 4 7) NeighborEntryState.REACHABLE)]).portDown
        3 = some (c2, us) ∧
      (∀ k e,
        (NeighborCache.mk 1 7
          [(5, CacheEntry.mk (EntryFields.resolved 5 9 3 7) NeighborEntryState.REACHABLE),
           (6, CacheEntry.mk (EntryFields.resolved 6 10 4 7) NeighborEntryState.REACHABLE)]).getCacheEntry
          k = some e → e.fields.port = 3 →
        c2.getCacheEntry k =
          some (CacheEntry.mk (EntryFields.pendingFields k 7)
            NeighborEntryState.INCOMPLETE) ∧
        StateUpdate.programPending (EntryFields.pendingFields k 7) 1 true ∈ us) ∧
      (∀ k e,
        (NeighborCache.mk 1 7
          [(5, CacheEntry.mk (EntryFields.resolved 5 9 3 7) NeighborEntryState.REACHABLE),
           (6, CacheEntry.mk (EntryFields.resolved 6 10 4 7) NeighborEntryState.REACHABLE)]).getCacheEntry
          k = some e → e.fields.port ≠ 3 →
        c2.getCacheEntry k = some e) ∧
      (∀ u ∈ us, ∃ k e,
        (NeighborCache.mk 1 7
          [(5, CacheEntry.mk (EntryFields.resolved 5 9 3 7) NeighborEntryState.REACHABLE),
           (6, CacheEntry.mk (EntryFields.resolved 6 10 4 7) NeighborEntryState.REACHABLE)]).getCacheEntry
          k = some e ∧ e.fields.port = 3 ∧
        u = StateUpdate.programPending (EntryFields.pendingFields k 7) 1 true) ∧
      (∀ ip2 intf2 s vlan, s.getVlanIf 1 = some vlan →
        Interface.isIpAttached ip2 intf2 s = true →
        ∃ s2 vlan2,
          programPendingEntryFn (EntryFields.pendingFields ip2 intf2) 1 true s = some s2 ∧
          s2.getVlanIf 1 = some vlan2 ∧
          vlan2.table.getNodeIf ip2 = some (NeighborNode.mk none 0 intf2 true) ∧
          ∀ k, k ≠ ip2 → vlan2.table.getNodeIf k = vlan.table.getNodeIf k)) :=
  ⟨by decide,
    portDown_correct
      (NeighborCache.mk 1 7
        [(5, CacheEntry.mk (EntryFields.resolved 5 9 3 7) NeighborEntryState.REACHABLE),
         (6, CacheEntry.mk (EntryFields.resolved 6 10 4 7) NeighborEntryState.REACHABLE)])
      3 (by decide)⟩

/-- Helper: `repopulate` is the unconditional replay fold: every table node is
written into the map at its own address with the seeded state. -/
theorem repopulate_eq :
    ∀ (table : NeighborTable) (v i : Nat) (ents : List (Nat × CacheEntry)),
    (NeighborCache.mk v i ents).repopulate table =
      NeighborCache.mk v i
        (foldInsert (fun p => p.1)
          (fun p => CacheEntry.mk
            (EntryFields.mk p.1 p.2.mac p.2.port p.2.intfID p.2.pending)
            (if p.2.pending then NeighborEntryState.INCOMPLETE
              else NeighborEntryState.STALE))
          (fun _ => true) table ents) := by
  intro table
  induction table with
  | nil =>
    intro v i ents
    rfl
  | cons hd tl ih =>
    intro v i ents
    have hstep : (NeighborCache.mk v i ents).repopulate (hd :: tl) =
        (NeighborCache.mk v i (insertA ents hd.1
          (CacheEntry.mk (EntryFields.mk hd.1 hd.2.mac hd.2.port hd.2.intfID hd.2.pending)
            (if hd.2.pending then NeighborEntryState.INCOMPLETE
              else NeighborEntryState.STALE)))).repopulate tl := by
      unfold NeighborCache.repopulate
      rw [List.foldl_cons]
      congr 1
      show ((NeighborCache.mk v i ents).setEntryInternal
          ⟨hd.1, hd.2.mac, hd.2.port, hd.2.intfID, hd.2.pending⟩
          (if hd.2.pending then NeighborEntryState.INCOMPLETE
            else NeighborEntryState.STALE) true).2 = _
      rw [setEntryInternal_add]
      rfl
    rw [hstep, ih]
    rw [foldInsert_cons]
    simp

/-- C7: with distinct table keys, every node imported by `repopulate` ends
up in the cache map at its address with exactly its fields and a seeded
state that is INCOMPLETE when the node is pending and STALE otherwise —
never REACHABLE; the replay is an upsert into the map whatever the prior
content of the cache. -/
theorem repopulate_correct (c : NeighborCache) (table : NeighborTable)
    (hnd : (table.map Prod.fst).Nodup) :
    (∀ ip node, table.getNodeIf ip = some node →
      (c.repopulate table).getCacheEntry ip =
        some (CacheEntry.mk (EntryFields.mk ip node.mac node.port node.intfID node.pending)
          (if node.pending then NeighborEntryState.INCOMPLETE
            else NeighborEntryState.STALE)) ∧
      (if node.pending then NeighborEntryState.INCOMPLETE
        else NeighborEntryState.STALE) ≠ NeighborEntryState.REACHABLE) ∧
    (c.repopulate table).vlanID = c.vlanID ∧
    (c.repopulate table).intfID = c.intfID := by
  obtain ⟨v, i, ents⟩ := c
  rw [repopulate_eq]
  refine ⟨?_, rfl, rfl⟩
  intro ip node hn
  have hmem : (ip, node) ∈ table := lookupA_mem table ip node hn
  constructor
  · show lookupA (foldInsert _ _ _ table ents) ip = _
    rw [foldInsert_lookup_of_mem _ _ _ table ents ip (ip, node) hnd hmem rfl rfl]
  · cases hp : node.pending <;> simp

/-- C7 witness: a two-node table (pending node at 5, resolved node at 6)
replayed into an empty cache. -/
theorem repopulate_correct_witness :
    ((([(5, NeighborNode.mk none 0 7 true),
        (6, NeighborNode.mk (some 10) 4 7 false)] : NeighborTable).map Prod.fst).Nodup) ∧
    ((∀ ip node,
      NeighborTable.getNodeIf
        [(5, NeighborNode.mk none 0 7 true),
         (6, NeighborNode.mk (some 10) 4 7 false)] ip = some node →
      ((NeighborCache.mk 1 7 []).repopulate
          [(5, NeighborNode.mk none 0 7 true),
           (6, NeighborNode.mk (some 10) 4 7 false)]).getCacheEntry ip =
        some (CacheEntry.mk (EntryFields.mk ip node.mac node.port node.intfID node.pending)
          (if node.pending then NeighborEntryState.INCOMPLETE
            else NeighborEntryState.STALE)) ∧
      (if node.pending then NeighborEntryState.INCOMPLETE
        else NeighborEntryState.STALE) ≠ NeighborEntryState.REACHABLE) ∧
    ((NeighborCache.mk 1 7 []).repopulate
        [(5, NeighborNode.mk none 0 7 true),
         (6, NeighborNode.mk (some 10) 4 7 false)]).vlanID = 1 ∧
    ((NeighborCache.mk 1 7 []).repopulate
        [(5, NeighborNode.mk none 0 7 true),
         (6, NeighborNode.mk (some 10) 4 7 false)]).intfID = 7) :=
  ⟨by decide,
    repopulate_correct (NeighborCache.mk 1 7 [])
      [(5, NeighborNode.mk none 0 7 true), (6, NeighborNode.mk (some 10) 4 7 false)]
      (by decide)⟩

/-- C8: `processEntry(a)` with an existing entry advances the entry's state
machine exactly one step; if the step lands on EXPIRED the entry is removed
from the map and the non-blocking flush transform is submitted (which
removes the tree node when applied); otherwise the stepped entry stays in
the map and nothing is submitted.  With no entry, map and tree are left
untouched and no error is reported. -/
theorem processEntry_correct (c : NeighborCache) (proc : CacheEntry → CacheEntry)
    (ip : Nat) (hnd : (c.entries.map Prod.fst).Nodup) :
    (c.getCacheEntry ip = none → c.processEntry proc ip = (c, none)) ∧
    (∀ e, c.getCacheEntry ip = some e →
      ((proc e).state = NeighborEntryState.EXPIRED →
        (c.processEntry proc ip).1.getCacheEntry ip = none ∧
        (c.processEntry proc ip).2 = some (StateUpdate.flush c.vlanID ip) ∧
        (∀ s vlan node, s.getVlanIf c.vlanID = some vlan →
          vlan.table.getNodeIf ip = some node →
          applyUpdate (StateUpdate.flush c.vlanID ip) s =
            Except.ok (some (s.setVlanTable c.vlanID (vlan.table.removeNode ip))))) ∧
      ((proc e).state ≠ NeighborEntryState.EXPIRED →
        c.processEntry proc ip =
          (c.withEntries (insertA c.entries ip (proc e)), none) ∧
        (c.withEntries (insertA c.entries ip (proc e))).getCacheEntry ip =
          some (proc e))) := by
  constructor
  · intro h
    unfold NeighborCache.processEntry
    rw [h]
  · intro e hc
    constructor
    · intro hexp
      have hpe : c.processEntry proc ip =
          (c.withEntries (eraseA (insertA c.entries ip (proc e)) ip),
            some (StateUpdate.flush c.vlanID ip)) := by
        unfold NeighborCache.processEntry
        rw [hc]
        dsimp only
        rw [if_pos hexp]
        unfold NeighborCache.flushEntry NeighborCache.removeEntry
          NeighborCache.withEntries
        dsimp only
        rw [lookupA_insertA_self]
      refine ⟨?_, ?_, ?_⟩
      · rw [hpe]
        show lookupA (eraseA (insertA c.entries ip (proc e)) ip) ip = none
        exact lookupA_eraseA_self _ _ (insertA_keys_nodup c.entries ip (proc e) hnd)
      · rw [hpe]
      · intro s vlan node hv hn
        have hvl : s.getVlan c.vlanID = Except.ok vlan := by
          unfold SwitchState.getVlan
          rw [show lookupA s.vlans c.vlanID = some vlan from hv]
        show flushEntryUpdateFn c.vlanID ip s = _
        simp [flushEntryUpdateFn, hvl, flushEntryFromSwitchState, hn]
    · intro hexp
      have hpe : c.processEntry proc ip =
          (c.withEntries (insertA c.entries ip (proc e)), none) := by
        unfold NeighborCache.processEntry
        rw [hc]
        dsimp only
        rw [if_neg hexp]
        rfl
      refine ⟨hpe, ?_⟩
      show lookupA (insertA c.entries ip (proc e)) ip = _
      rw [lookupA_insertA_self]

/-- C8 witness: a one-entry cache at address 5 under a step function that
expires everything; the entry is flushed from map and tree. -/
theorem processEntry_correct_witness :
    (([(5, CacheEntry.mk (EntryFields.resolved 5 9 3 7)
        NeighborEntryState.REACHABLE)].map
        (Prod.fst (α := Nat) (β := CacheEntry))).Nodup) ∧
    ((NeighborCache.mk 1 7
        [(5, CacheEntry.mk (EntryFields.resolved 5 9 3 7)
          NeighborEntryState.REACHABLE)]).getCacheEntry 5 =
      some (CacheEntry.mk (EntryFields.resolved 5 9 3 7)
        NeighborEntryState.REACHABLE)) ∧
    ((NeighborCache.mk 1 7
        [(5, CacheEntry.mk (EntryFields.resolved 5 9 3 7)
          NeighborEntryState.REACHABLE)]).processEntry
        (fun e => CacheEntry.mk e.fields NeighborEntryState.EXPIRED) 5).1.getCacheEntry
        5 = none ∧
    ((NeighborCache.mk 1 7
        [(5, CacheEntry.mk (EntryFields.resolved 5 9 3 7)
          NeighborEntryState.REACHABLE)]).processEntry
        (fun e => CacheEntry.mk e.fields NeighborEntryState.EXPIRED) 5).2 =
      some (StateUpdate.flush 1 5) := by
  have h := processEntry_correct
    (NeighborCache.mk 1 7
      [(5, CacheEntry.mk (EntryFields.resolved 5 9 3 7) NeighborEntryState.REACHABLE)])
    (fun e => CacheEntry.mk e.fields NeighborEntryState.EXPIRED) 5 (by decide)
  have h2 := (h.2 (CacheEntry.mk (EntryFields.resolved 5 9 3 7)
    NeighborEntryState.REACHABLE) rfl).1 rfl
  exact ⟨by decide, rfl, h2.1, h2.2.1⟩

/-- C9: the caller-misuse CHECKs cannot fire from the public operations:
`setEntryInternal` always hands back an entry carrying exactly the supplied
fields (so its pending flag equals that of the fields the operation built),
hence `setEntry`, `setExistingEntry`, `setPendingEntry` and `portDown` all
run to completion (`isSome`, the modelled CHECKs passing) on every cache. -/
theorem program_checks_never_fire (c : NeighborCache) (ip mac portID p : Nat)
    (st : NeighborEntryState) (force : Bool) :
    (∀ fields st2 add e, (c.setEntryInternal fields st2 add).1 = some e →
      e.fields = fields) ∧
    (c.setEntry ip mac portID st).isSome ∧
    (c.setExistingEntry ip mac portID st).isSome ∧
    (c.setPendingEntry ip force).isSome ∧
    (c.portDown p).isSome := by
  refine ⟨?_, ?_, ?_, ?_, ?_⟩
  · intro fields st2 add e h
    cases hl : c.getCacheEntry fields.ip with
    | some e0 =>
      rw [setEntryInternal_found c fields st2 add e0 hl] at h
      injection h with h
      rw [← h]
    | none =>
      cases add with
      | true =>
        rw [setEntryInternal_add] at h
        injection h with h
        rw [← h]
      | false =>
        rw [setEntryInternal_no_add c fields st2 hl] at h
        cases h
  · rw [setEntry_eq]
    rfl
  · unfold NeighborCache.setExistingEntry
    cases hl : c.getCacheEntry ip with
    | some e0 =>
      rw [setEntryInternal_found c (EntryFields.resolved ip mac portID c.intfID) st
        false e0 hl]
      rfl
    | none =>
      rw [setEntryInternal_no_add c (EntryFields.resolved ip mac portID c.intfID) st hl]
      rfl
  · cases force with
    | true =>
      rw [setPendingEntry_force_eq]
      rfl
    | false =>
      unfold NeighborCache.setPendingEntry
      cases hl : c.getCacheEntry ip with
      | some e0 =>
        rfl
      | none =>
        rw [setEntryInternal_add]
        rfl
  · rw [portDown_eq]
    rfl

/-- C9 witness: the guarantees at a concrete one-entry cache holding a
pending entry at address 5, with a resolved `setEntry`/`setExistingEntry`
for 5 and a forced pending request, plus a port-down on port 3. -/
theorem program_checks_never_fire_witness :
    (∀ fields st2 add e,
      ((NeighborCache.mk 1 7
        [(5, CacheEntry.mk (EntryFields.pendingFields 5 7)
          NeighborEntryState.INCOMPLETE)]).setEntryInternal fields st2 add).1 =
        some e → e.fields = fields) ∧
    ((NeighborCache.mk 1 7
      [(5, CacheEntry.mk (EntryFields.pendingFields 5 7)
        NeighborEntryState.INCOMPLETE)]).setEntry 5 9 3
      NeighborEntryState.REACHABLE).isSome ∧
    ((NeighborCache.mk 1 7
      [(5, CacheEntry.mk (EntryFields.pendingFields 5 7)
        NeighborEntryState.INCOMPLETE)]).setExistingEntry 5 9 3
      NeighborEntryState.REACHABLE).isSome ∧
    ((NeighborCache.mk 1 7
      [(5, CacheEntry.mk (EntryFields.pendingFields 5 7)
        NeighborEntryState.INCOMPLETE)]).setPendingEntry 5 true).isSome ∧
    ((NeighborCache.mk 1 7
      [(5, CacheEntry.mk (EntryFields.pendingFields 5 7)
        NeighborEntryState.INCOMPLETE)]).portDown 3).isSome :=
  program_checks_never_fire
    (NeighborCache.mk 1 7
      [(5, CacheEntry.mk (EntryFields.pendingFields 5 7)
        NeighborEntryState.INCOMPLETE)]) 5 9 3 3 NeighborEntryState.REACHABLE true

end Fboss
